import Mathlib

/-!
Verification development for the SDN-IDS ML inference service
(`ml/inference.py` and `ml/ml_service.py`), shallowly embedded in Lean 4.

Numeric values flowing through the preprocessor and the models are embedded
as `FVal`: finite rationals plus the IEEE special values `+inf`, `-inf`
and `NaN` (float32 rounding itself is abstracted away; what matters to the
code under study is only finiteness, NaN-ness, ordering and arithmetic on
finite values, which rationals represent exactly).  Python exceptions are
embedded as `Except Unit`.  Filesystem probes (`os.path.exists`) are
embedded as a boolean oracle over file names.
-/

/-- Embedded numeric scalar: a finite rational, `+inf`, `-inf`, or `NaN`. -/
inductive FVal where
  | fin (q : ℚ)
  | posInf
  | negInf
  | nan
deriving DecidableEq, Repr

namespace FVal

/-- `np.isinf` on a single value. -/
def isInf : FVal → Bool
  | posInf => true
  | negInf => true
  | _ => false

/-- `np.isnan` on a single value. -/
def isNan : FVal → Bool
  | nan => true
  | _ => false

/-- Binary maximum with numpy `np.max` reduction semantics: NaN propagates,
`+inf` dominates, `-inf` is the identity. -/
def vmax : FVal → FVal → FVal
  | nan, _ => nan
  | _, nan => nan
  | posInf, _ => posInf
  | _, posInf => posInf
  | negInf, b => b
  | a, negInf => a
  | fin a, fin b => fin (max a b)

/-- IEEE-style addition on embedded scalars (used by `np.mean`). -/
def add : FVal → FVal → FVal
  | nan, _ => nan
  | _, nan => nan
  | posInf, negInf => nan
  | negInf, posInf => nan
  | posInf, _ => posInf
  | _, posInf => posInf
  | negInf, _ => negInf
  | _, negInf => negInf
  | fin a, fin b => fin (a + b)

/-- Division of an embedded scalar by a positive natural (the length of the
array being averaged). -/
def divNat : FVal → Nat → FVal
  | fin q, n => fin (q / (n : ℚ))
  | posInf, _ => posInf
  | negInf, _ => negInf
  | nan, _ => nan

/-- Strictly-greater test on non-NaN scalars (NaN compares false, as in
IEEE/Python; used by the argmax scan). -/
def gtB : FVal → FVal → Bool
  | nan, _ => false
  | _, nan => false
  | posInf, posInf => false
  | posInf, _ => true
  | _, posInf => false
  | negInf, _ => false
  | fin _, negInf => true
  | fin a, fin b => decide (b < a)

/-- Python `int(x)` on an embedded scalar: truncation toward zero on finite
values, an exception (`OverflowError`/`ValueError`) on infinities and NaN. -/
def toInt : FVal → Except Unit Int
  | fin q => .ok (q.num / (q.den : Int))
  | _ => .error ()

/-- Whether the value is a finite rational lying in the closed interval
[0, 1] (infinities and NaN are not). -/
def inUnit : FVal → Bool
  | fin q => decide (0 ≤ q ∧ q ≤ 1)
  | _ => false

end FVal

/-- A row of features, as handed to numpy. -/
abbrev FRow := List FVal

/-- A 2-d numeric matrix (list of rows). -/
abbrev FMatrix := List FRow

/-- `np.isinf(row).any()`: the row contains at least one infinite entry. -/
def rowHasInf (row : FRow) : Bool := row.any FVal.isInf

/-- A fitted scaler's `transform`, abstract: any matrix transform.  `None`
(absent scaler) is represented by `Option.none` at call sites. -/
abbrev Scaler := FMatrix → FMatrix

/-- Embeds `preprocess_input(X, scaler)` from `ml/inference.py`:
build the per-row finite mask `~np.isinf(X).any(axis=1)`; if not all rows
are finite, keep only the rows of the mask (`X = X[finite_mask]`);
finally apply the scaler when one is provided. -/
def preprocess_input (X : FMatrix) (scaler : Option Scaler) : FMatrix :=
  let finite_mask := X.map (fun row => !rowHasInf row)
  let X1 := if finite_mask.all (fun b => b) then X
            else X.filter (fun row => !rowHasInf row)
  match scaler with
  | some s => s X1
  | none => X1

/-- The drop count reported by `preprocess_input`'s warning:
`np.sum(~finite_mask)`. -/
def preprocess_dropCount (X : FMatrix) : Nat :=
  (X.map (fun row => rowHasInf row)).count true

/-- A model directory, abstracted to the `os.path.exists` oracle over the
file names joined onto the folder path. -/
structure ModelFolder where
  hasFile : String → Bool

/-- The two load-time failures of `load_model_from_folder`:
`RuntimeError('TensorFlow/Keras not available for .h5 model')` and
`FileNotFoundError('No supported model file found in folder')`. -/
inductive LoadError where
  | runtimeUnavailable
  | noSupportedModel
deriving DecidableEq, Repr

/-- The optional-companion context assembled by `load_model_from_folder`;
loaded artifacts are abstracted to the file name they were loaded from. -/
structure LoadContext where
  framework : Option String
  scaler : Option String
  label_encoder : Option String
deriving DecidableEq, Repr

/-- Candidate Keras artifact names probed first. -/
def h5_candidates : List String := ["model.h5", "keras_model.h5"]

/-- Candidate scikit-learn artifact names probed as fallback, in order. -/
def skl_candidates : List String := ["model.pkl", "random_forest_model.joblib", "model.joblib"]

/-- The companion probe shared by both branches: load `scaler.joblib` and
`label_encoder.joblib` when present. -/
def loadCompanions (folder : ModelFolder) : Option String × Option String :=
  (if folder.hasFile "scaler.joblib" then some "scaler.joblib" else none,
   if folder.hasFile "label_encoder.joblib" then some "label_encoder.joblib" else none)

/-- Embeds `load_model_from_folder` from `ml/inference.py`.  `kerasAvailable`
embeds `keras is not None` (whether the TensorFlow import succeeded); the
returned model artifact is abstracted to the file name it was loaded from. -/
def load_model_from_folder (kerasAvailable : Bool) (folder : ModelFolder) :
    Except LoadError (String × LoadContext) :=
  match h5_candidates.find? folder.hasFile with
  | some h5 =>
      if kerasAvailable then
        let c := loadCompanions folder
        .ok (h5, { framework := some "tensorflow", scaler := c.1, label_encoder := c.2 })
      else
        .error .runtimeUnavailable
  | none =>
      match skl_candidates.find? folder.hasFile with
      | some p =>
          let c := loadCompanions folder
          .ok (p, { framework := some "scikit-learn", scaler := c.1, label_encoder := c.2 })
      | none => .error .noSupportedModel

/-- Incoming flow JSON for `extract_features` in `ml/ml_service.py`:
each field is optional (`flow_data.get(key, default)`), numeric fields are
embedded as rationals. -/
structure FlowData where
  packet_count : Option ℚ
  byte_count : Option ℚ
  duration_seconds : Option ℚ
  protocol : Option String
  source_port : Option ℚ
  destination_port : Option ℚ
  flow_id : Option String
deriving DecidableEq, Repr

/-- The feature dictionary produced by `extract_features` (all keys are
always present in the returned dict). -/
structure Features where
  packet_count : ℚ
  byte_count : ℚ
  duration : ℚ
  protocol : String
  src_port : ℚ
  dst_port : ℚ
  packets_per_second : ℚ
  bytes_per_second : ℚ
  avg_packet_size : ℚ
  protocol_num : ℚ
deriving DecidableEq, Repr

/-- `protocol_map = {'TCP': 6, 'UDP': 17, 'ICMP': 1}` with `.get(p, 0)`. -/
def protocol_map_get (p : String) : ℚ :=
  if p = "TCP" then 6 else if p = "UDP" then 17 else if p = "ICMP" then 1 else 0

/-- Embeds `extract_features(flow_data)` from `ml/ml_service.py`: field
renaming with defaults, guarded derived rates/sizes, protocol encoding.
(The `except` clause of the source re-raises, so it has no semantic
effect on the embedded, well-typed inputs.) -/
def extract_features (fd : FlowData) : Features :=
  let packet_count := fd.packet_count.getD 0
  let byte_count := fd.byte_count.getD 0
  let duration := fd.duration_seconds.getD 0
  let protocol := fd.protocol.getD "TCP"
  let src_port := fd.source_port.getD 0
  let dst_port := fd.destination_port.getD 0
  let packets_per_second := if 0 < duration then packet_count / duration else 0
  let bytes_per_second := if 0 < duration then byte_count / duration else 0
  let avg_packet_size := if 0 < packet_count then byte_count / packet_count else 0
  { packet_count := packet_count
    byte_count := byte_count
    duration := duration
    protocol := protocol
    src_port := src_port
    dst_port := dst_port
    packets_per_second := packets_per_second
    bytes_per_second := bytes_per_second
    avg_packet_size := avg_packet_size
    protocol_num := protocol_map_get protocol }

/-- A numpy ndarray of dimension 0, 1 or 2 (the shapes the inference code
distinguishes via `ndim`, `shape`, `size`). -/
inductive NDArray where
  | scalar (v : FVal)
  | vec (l : List FVal)
  | mat (m : List FRow)
deriving DecidableEq, Repr

namespace NDArray

/-- `a.ndim`. -/
def ndim : NDArray → Nat
  | scalar _ => 0
  | vec _ => 1
  | mat _ => 2

/-- All elements of the array in row-major order. -/
def elems : NDArray → List FVal
  | scalar v => [v]
  | vec l => l
  | mat m => m.flatten

/-- `a.size`. -/
def size (a : NDArray) : Nat := a.elems.length

/-- `a.shape[1]` for a 2-d array (numpy arrays are rectangular, so the
first row's length is the column count); `0` on lower dimensions, where
the code never reads it. -/
def shape1 : NDArray → Nat
  | mat m => (m.headD []).length
  | _ => 0

end NDArray

/-- A Python object returned by a model's `predict_proba`/`predict`:
a numpy ndarray, a Python `list` (which `np.array` converts to the carried
array), or anything else. -/
inductive PyOut where
  | arr (a : NDArray)
  | plist (a : NDArray)
  | other
deriving DecidableEq, Repr

/-- A duck-typed model: each capability is either absent (`hasattr` is
false / `AttributeError` on call) or a function from the preprocessed
matrix to a Python result, where `.error ()` embeds a raised exception. -/
structure PyModel where
  predict_proba : Option (FMatrix → Except Unit PyOut)
  predict : Option (FMatrix → Except Unit PyOut)

/-- `np.max` over all elements: `ValueError` on an empty array, otherwise
the NaN-propagating maximum reduction. -/
def npMax (l : List FVal) : Except Unit FVal :=
  match l with
  | [] => .error ()
  | v :: vs => .ok (vs.foldl FVal.vmax v)

/-- `arr.mean()` over all elements: NaN (with a warning) on an empty
array, otherwise the IEEE sum divided by the element count. -/
def npMean (l : List FVal) : FVal :=
  match l with
  | [] => .nan
  | _ => FVal.divNat (l.foldl FVal.add (.fin 0)) l.length

/-- `np.argmax` over one row: `ValueError` on an empty row; the index of
the first NaN when one is present (numpy's NaN propagation), else the
index of the first maximum. -/
def rowArgmax (row : FRow) : Except Unit Nat :=
  match row with
  | [] => .error ()
  | v :: vs =>
      if row.any FVal.isNan then .ok (row.findIdx FVal.isNan)
      else .ok ((vs.foldl
        (fun acc x =>
          let best := acc.2.2
          if x.gtB best then (acc.1 + 1, acc.1 + 1, x) else (acc.1 + 1, acc.2.1, best))
        (0, 0, v)).2.1)

/-- `np.argmax(a, axis=1)` on a 2-d array: one index per row, returned as
a 1-d integer array; raises if any row is empty. -/
def matArgmax (m : List FRow) : Except Unit NDArray := do
  let idxs ← m.mapM rowArgmax
  .ok (.vec (idxs.map (fun i => .fin (i : ℚ))))

/-- The final Python value bound to `pred` before `pred == 1`: a number,
or a non-numeric object (which never equals 1). -/
inductive PredScalar where
  | num (v : FVal)
  | obj
deriving DecidableEq, Repr

/-- The post-`predict` shape normalization of `predict_threat`:
`argmax(axis=1)` on multi-dimensional arrays, then `squeeze().item()` on
size-1 arrays or `int(pred[0])` otherwise; non-array results pass
through unchanged (and compare unequal to 1). -/
def pred_pipeline (out : PyOut) : Except Unit PredScalar :=
  match out with
  | .arr a => do
      let a1 ← if a.ndim > 1 then
                 match a with
                 | .mat m => matArgmax m
                 | _ => .ok a
               else .ok a
      if a1.size = 1 then
        .ok (.num (a1.elems.headD .nan))
      else
        match a1.elems.head? with
        | none => .error ()
        | some h => do
            let n ← h.toInt
            .ok (.num (.fin (n : ℚ)))
  | .plist _ => .ok .obj
  | .other => .ok .obj

/-- The whole `pred` computation of `predict_threat` (lines 195-203):
every exception in the `try` block — a missing `predict` attribute, a
raising `predict`, or a shape-normalization failure — is caught and
replaced by the default class `0`. -/
def compute_pred (m : PyModel) (X : FMatrix) : PredScalar :=
  match m.predict with
  | none => .num (.fin 0)
  | some p =>
      match p X with
      | .error _ => .num (.fin 0)
      | .ok out =>
          match pred_pipeline out with
          | .error _ => .num (.fin 0)
          | .ok s => s

/-- The confidence computation of `predict_threat` (lines 178-192).
The `predict_proba` branch is NOT inside a `try`: a raising
`predict_proba`, a non-array result (no `.ndim`), or `np.max` on an empty
array propagates as `.error`.  The fallback branch is inside a `try`, so
every failure there collapses to the default `0.5`. -/
def compute_conf (m : PyModel) (X : FMatrix) : Except Unit FVal :=
  match m.predict_proba with
  | some pp =>
      match pp X with
      | .error e => .error e
      | .ok out =>
          match out with
          | .other => .error ()
          | .arr a =>
              if a.ndim = 2 ∧ a.shape1 > 1 then npMax a.elems
              else .ok (npMean a.elems)
          | .plist a =>
              if a.ndim = 2 ∧ a.shape1 > 1 then npMax a.elems
              else .ok (npMean a.elems)
  | none =>
      match m.predict with
      | none => .ok (.fin (1 / 2))
      | some p =>
          match p X with
          | .error _ => .ok (.fin (1 / 2))
          | .ok (.arr a) =>
              match npMax a.elems with
              | .ok v => .ok v
              | .error _ => .ok (.fin (1 / 2))
          | .ok _ => .ok (.fin (1 / 2))

/-- The feature dictionary argument of `predict_threat`: the nine keys it
reads, each possibly absent (`features.get(key, 0)`). -/
structure FeatureMap where
  packet_count : Option FVal
  byte_count : Option FVal
  duration : Option FVal
  packets_per_second : Option FVal
  bytes_per_second : Option FVal
  avg_packet_size : Option FVal
  protocol_num : Option FVal
  src_port : Option FVal
  dst_port : Option FVal
deriving DecidableEq

/-- The single-row feature matrix `feature_values` built at the top of
`predict_threat`. -/
def featureRow (f : FeatureMap) : FMatrix :=
  [[f.packet_count.getD (.fin 0),
    f.byte_count.getD (.fin 0),
    f.duration.getD (.fin 0),
    f.packets_per_second.getD (.fin 0),
    f.bytes_per_second.getD (.fin 0),
    f.avg_packet_size.getD (.fin 0),
    f.protocol_num.getD (.fin 0),
    f.src_port.getD (.fin 0),
    f.dst_port.getD (.fin 0)]]

/-- `bool(pred == 1)` on the normalized prediction value. -/
def predEqOne : PredScalar → Bool
  | .num (.fin q) => decide (q = 1)
  | _ => false

/-- The canonical Decision Record assembled by `predict_threat`. -/
structure DecisionRecord where
  prediction : String
  confidence : FVal
  is_malicious : Bool
  attack_type : String
  inference_time : ℚ
deriving DecidableEq, Repr

/-- Embeds `predict_threat(features, model)` from `ml/inference.py`.
`scaler` embeds the result of the working-directory probe
`joblib.load('scaler.joblib') if os.path.exists('scaler.joblib') else None`.
An `.error` result embeds an exception escaping to the caller. -/
def predict_threat (features : FeatureMap) (m : PyModel) (scaler : Option Scaler) :
    Except Unit DecisionRecord := do
  let X := preprocess_input (featureRow features) scaler
  let conf ← compute_conf m X
  let pred := compute_pred m X
  let is_malicious := predEqOne pred
  .ok { prediction := if is_malicious then "malicious" else "benign"
        confidence := conf
        is_malicious := is_malicious
        attack_type := if is_malicious then "anomaly" else "benign"
        inference_time := 0 }

/-- Bridges the `extract_features` output dictionary to the nine keys
`predict_threat` reads (`features.get(key, 0)`): every numeric key is
present, the extra `protocol` string key is never read by
`predict_threat`. -/
def Features.toMap (f : Features) : FeatureMap :=
  { packet_count := some (.fin f.packet_count)
    byte_count := some (.fin f.byte_count)
    duration := some (.fin f.duration)
    packets_per_second := some (.fin f.packets_per_second)
    bytes_per_second := some (.fin f.bytes_per_second)
    avg_packet_size := some (.fin f.avg_packet_size)
    protocol_num := some (.fin f.protocol_num)
    src_port := some (.fin f.src_port)
    dst_port := some (.fin f.dst_port) }

/-- One entry of the `predictions` list built by the `/predict/batch`
route in `ml/ml_service.py` (the `.get(key, default)` calls collapse,
since `predict_threat` always returns every key). -/
structure BatchRecord where
  flow_id : String
  prediction : String
  confidence : FVal
  is_malicious : Bool
  attack_type : String
deriving DecidableEq, Repr

/-- The body of one iteration of the batch loop: extract features from
the flow, run `predict_threat`, and project the response fields.  An
exception anywhere aborts the whole request. -/
def predictOne (m : PyModel) (scaler : Option Scaler) (flow : FlowData) :
    Except Unit BatchRecord := do
  let feats := extract_features flow
  let r ← predict_threat feats.toMap m scaler
  .ok { flow_id := flow.flow_id.getD "unknown"
        prediction := r.prediction
        confidence := r.confidence
        is_malicious := r.is_malicious
        attack_type := r.attack_type }

/-- The JSON object returned by `/predict/batch` on success. -/
structure BatchResponse where
  predictions : List BatchRecord
  total_flows : Nat
  malicious_count : Nat
deriving DecidableEq, Repr

/-- The `for flow in flows` loop of `predict_batch`: records are appended
in input order; the first exception aborts the request (the route's
`except` turns it into an error response). -/
def predict_batch_loop (m : PyModel) (scaler : Option Scaler) :
    List FlowData → Except Unit (List BatchRecord)
  | [] => .ok []
  | f :: fs =>
      match predictOne m scaler f with
      | .error e => .error e
      | .ok r =>
          match predict_batch_loop m scaler fs with
          | .error e => .error e
          | .ok rs => .ok (r :: rs)

/-- Embeds the `/predict/batch` route of `ml/ml_service.py`:
`total_flows = len(predictions)` and
`malicious_count = sum(1 for p in predictions if p['is_malicious'])`. -/
def predict_batch (m : PyModel) (scaler : Option Scaler) (flows : List FlowData) :
    Except Unit BatchResponse :=
  match predict_batch_loop m scaler flows with
  | .error e => .error e
  | .ok ps =>
      .ok { predictions := ps
            total_flows := ps.length
            malicious_count := ps.countP (fun p => p.is_malicious) }

/-- Whether the value is a finite rational (neither infinite nor NaN). -/
def FVal.isFin : FVal → Bool
  | .fin _ => true
  | _ => false

/-- A decidable-equality instance for `Except`, so concrete runs of the
embedded fallible functions can be checked by `decide`. -/
instance {e a : Type} [DecidableEq e] [DecidableEq a] : DecidableEq (Except e a) := fun x y =>
  match x, y with
  | .error u, .error v =>
      if h : u = v then .isTrue (congrArg Except.error h)
      else .isFalse (fun hc => h (Except.error.inj hc))
  | .ok u, .ok v =>
      if h : u = v then .isTrue (congrArg Except.ok h)
      else .isFalse (fun hc => h (Except.ok.inj hc))
  | .error _, .ok _ => .isFalse (fun hc => Except.noConfusion hc)
  | .ok _, .error _ => .isFalse (fun hc => Except.noConfusion hc)

/-- An array is a well-formed probability output: nonempty, with every
element a finite rational in [0, 1]. -/
def goodArr (a : NDArray) : Prop :=
  a.elems ≠ [] ∧ ∀ v ∈ a.elems, v.inUnit = true

/-- A `predict_proba` result is well formed when the array it carries
(directly or after `np.array` conversion of a Python list) is a
well-formed probability output; a non-array result raises before any
confidence is computed, so it constrains nothing. -/
def probaGood : PyOut → Prop
  | .arr a => goodArr a
  | .plist a => goodArr a
  | .other => True

/-- A concrete matrix with NaN entries in every row but no infinities,
used by the witnesses below. -/
def nanMatrix : FMatrix := [[.nan, .fin 1], [.fin 0, .nan], [.nan, .nan]]

/-- A concrete all-finite matrix. -/
def finiteMatrix : FMatrix := [[.fin 1, .fin 2], [.fin 3, .fin (-4)]]

/-- A directory holding only `keras_model.h5`. -/
def kerasOnlyFolder : ModelFolder := { hasFile := fun s => s == "keras_model.h5" }

/-- The flow record of the spec's worked example: 100 packets, 50000
bytes, 10 seconds, TCP. -/
def exampleFlow : FlowData :=
  { packet_count := some 100
    byte_count := some 50000
    duration_seconds := some 10
    protocol := some "TCP"
    source_port := some 80
    destination_port := some 443
    flow_id := some "f1" }

/-- The spec's zero-duration flow record. -/
def zeroDurationFlow : FlowData :=
  { packet_count := some 100
    byte_count := some 50000
    duration_seconds := some 0
    protocol := some "TCP"
    source_port := some 80
    destination_port := some 443
    flow_id := some "f2" }

/-- A flow record with every field absent (in particular no protocol). -/
def emptyFlow : FlowData :=
  { packet_count := none
    byte_count := none
    duration_seconds := none
    protocol := none
    source_port := none
    destination_port := none
    flow_id := none }

/-- A feature dictionary with all nine keys absent. -/
def emptyFeatureMap : FeatureMap :=
  { packet_count := none
    byte_count := none
    duration := none
    packets_per_second := none
    bytes_per_second := none
    avg_packet_size := none
    protocol_num := none
    src_port := none
    dst_port := none }

/-- A model exposing neither `predict_proba` nor `predict`. -/
def capabilityFreeModel : PyModel := { predict_proba := none, predict := none }

/-- A model whose `predict_proba` raises on every input. -/
def raisingProbaModel : PyModel :=
  { predict_proba := some (fun _ => .error ())
    predict := none }

/-- A model whose `predict_proba` returns the out-of-range probability
matrix [[2, 0]]. -/
def outOfRangeProbaModel : PyModel :=
  { predict_proba := some (fun _ => .ok (.arr (.mat [[.fin 2, .fin 0]])))
    predict := none }

/-- The Decision Record `predict_threat` produces for
`outOfRangeProbaModel`: its confidence is 2. -/
def outOfRangeDecision : DecisionRecord :=
  { prediction := "benign"
    confidence := .fin 2
    is_malicious := false
    attack_type := "benign"
    inference_time := 0 }

/-- A model whose `predict_proba` returns the well-formed probability
matrix [[3/4, 1/4]]. -/
def wellFormedProbaModel : PyModel :=
  { predict_proba := some (fun _ => .ok (.arr (.mat [[.fin (3/4), .fin (1/4)]])))
    predict := none }

/-- The Decision Record `predict_threat` produces for
`wellFormedProbaModel`. -/
def wellFormedDecision : DecisionRecord :=
  { prediction := "benign"
    confidence := .fin (3/4)
    is_malicious := false
    attack_type := "benign"
    inference_time := 0 }

/-- The safe-default Decision Record: confidence 0.5, class 0, hence a
benign verdict. -/
def defaultDecision : DecisionRecord :=
  { prediction := "benign"
    confidence := .fin (1/2)
    is_malicious := false
    attack_type := "benign"
    inference_time := 0 }

/-- The batch response for `[exampleFlow]` under `capabilityFreeModel`. -/
def exampleBatchResponse : BatchResponse :=
  { predictions := [{ flow_id := "f1"
                      prediction := "benign"
                      confidence := .fin (1/2)
                      is_malicious := false
                      attack_type := "benign" }]
    total_flows := 1
    malicious_count := 0 }

/-- The masking stage of `preprocess_input` always equals a plain filter of
the infinite rows, whether or not the `np.all(finite_mask)` fast path is
taken. -/
lemma preprocess_mask_eq_filter (X : FMatrix) :
    (if (X.map (fun row => !rowHasInf row)).all (fun b => b) then X
     else X.filter (fun row => !rowHasInf row)) = X.filter (fun row => !rowHasInf row) := by
  by_cases h : (X.map (fun row => !rowHasInf row)).all (fun b => b)
  · rw [if_pos h]
    refine (List.filter_eq_self.mpr ?_).symm
    intro r hr
    have := List.all_eq_true.mp h (!rowHasInf r) (List.mem_map_of_mem _ hr)
    simpa using this
  · rw [if_neg h]

/-- Accounting lemma: surviving finite rows plus rows with an infinity
make up the whole matrix. -/
lemma filter_length_add_countP_rowHasInf (X : FMatrix) :
    (X.filter (fun r => !rowHasInf r)).length + X.countP (fun r => rowHasInf r) = X.length := by
  induction X with
  | nil => rfl
  | cons r rs ih =>
      by_cases h : rowHasInf r <;>
        simp [List.filter_cons, List.countP_cons, h] <;>
        omega

/-- When no row of `X` contains an infinite value, the masking stage keeps
`X` unchanged. -/
lemma preprocess_noInf_eq_self (X : FMatrix) (h : ∀ r ∈ X, rowHasInf r = false) :
    preprocess_input X none = X := by
  show (if (X.map (fun row => !rowHasInf row)).all (fun b => b) then X
        else X.filter (fun row => !rowHasInf row)) = X
  rw [preprocess_mask_eq_filter]
  apply List.filter_eq_self.mpr
  intro r hr
  simp [h r hr]

/-- Claim C4: `preprocess_input` excludes from its output exactly the rows
containing at least one infinite value — the surviving rows are the filter
of the finite rows (then scaled, when a scaler is supplied) — and the
reported drop count `np.sum(~finite_mask)` equals the exact number of
excluded rows. -/
theorem preprocess_excludes_infinite_rows_exactly (X : FMatrix) (s : Scaler) :
    preprocess_input X (some s) = s (X.filter (fun r => !rowHasInf r)) ∧
    preprocess_input X none = X.filter (fun r => !rowHasInf r) ∧
    preprocess_dropCount X = X.countP (fun r => rowHasInf r) ∧
    (preprocess_input X none).length + preprocess_dropCount X = X.length := by
  have hcount : preprocess_dropCount X = X.countP (fun r => rowHasInf r) := by
    unfold preprocess_dropCount
    rw [List.count_eq_countP, List.countP_map]
    apply List.countP_congr
    intro a _
    simp [Function.comp]
  have h1 : preprocess_input X (some s) = s (X.filter (fun r => !rowHasInf r)) := by
    show s (if (X.map (fun row => !rowHasInf row)).all (fun b => b) then X
            else X.filter (fun row => !rowHasInf row)) = _
    rw [preprocess_mask_eq_filter]
  have h2 : preprocess_input X none = X.filter (fun r => !rowHasInf r) := by
    show (if (X.map (fun row => !rowHasInf row)).all (fun b => b) then X
          else X.filter (fun row => !rowHasInf row)) = _
    rw [preprocess_mask_eq_filter]
  refine ⟨h1, h2, hcount, ?_⟩
  rw [h2, hcount]
  exact filter_length_add_countP_rowHasInf X

/-- Claim C5: rows containing NaN (but no infinity) are NOT filtered by
`preprocess_input`; with no infinite entry anywhere, every row is
retained and the drop count is zero, regardless of NaN entries. -/
theorem preprocess_retains_nan_rows (X : FMatrix)
    (h : ∀ r ∈ X, ∀ v ∈ r, v.isInf = false) :
    preprocess_input X none = X ∧ preprocess_dropCount X = 0 := by
  have hrows : ∀ r ∈ X, rowHasInf r = false := by
    intro r hr
    unfold rowHasInf
    rw [List.any_eq_false]
    intro v hv
    simp [h r hr v hv]
  refine ⟨preprocess_noInf_eq_self X hrows, ?_⟩
  unfold preprocess_dropCount
  rw [List.count_eq_countP, List.countP_eq_zero]
  intro b hb
  rcases List.mem_map.mp hb with ⟨r, hr, rfl⟩
  simp [hrows r hr]

/-- Witness for claim C5 at a concrete matrix with NaN values in every
row: nothing is dropped. -/
theorem preprocess_retains_nan_rows_witness :
    preprocess_input nanMatrix none = nanMatrix ∧ preprocess_dropCount nanMatrix = 0 :=
  preprocess_retains_nan_rows nanMatrix (by with_unfolding_all decide)

/-- Claim C6: on a matrix all of whose entries are finite rationals,
`preprocess_input` with no scaler supplied is the identity transform. -/
theorem preprocess_identity_without_scaler (X : FMatrix)
    (h : ∀ r ∈ X, ∀ v ∈ r, v.isFin = true) :
    preprocess_input X none = X := by
  apply preprocess_noInf_eq_self
  intro r hr
  unfold rowHasInf
  rw [List.any_eq_false]
  intro v hv
  have := h r hr v hv
  cases v <;> simp_all [FVal.isFin, FVal.isInf]

/-- Witness for claim C6 at a concrete finite matrix. -/
theorem preprocess_identity_without_scaler_witness :
    preprocess_input finiteMatrix none = finiteMatrix :=
  preprocess_identity_without_scaler finiteMatrix (by with_unfolding_all decide)

/-- Claim C7: if the directory contains a neural-network artifact
(`model.h5` or `keras_model.h5`) and the Keras runtime is unavailable,
`load_model_from_folder` fails with the runtime-unavailable error instead
of falling back to the scikit-learn candidates. -/
theorem load_model_requires_keras_runtime (folder : ModelFolder)
    (h : folder.hasFile "model.h5" = true ∨ folder.hasFile "keras_model.h5" = true) :
    load_model_from_folder false folder = .error .runtimeUnavailable := by
  unfold load_model_from_folder
  cases hm : h5_candidates.find? folder.hasFile with
  | some h5 => simp
  | none =>
      exfalso
      have hnone := List.find?_eq_none.mp hm
      rcases h with h | h
      · exact hnone "model.h5" (by simp [h5_candidates]) h
      · exact hnone "keras_model.h5" (by simp [h5_candidates]) h

/-- Witness for claim C7 at a concrete directory containing only
`keras_model.h5`, loaded without the Keras runtime. -/
theorem load_model_requires_keras_runtime_witness :
    kerasOnlyFolder.hasFile "keras_model.h5" = true ∧
    load_model_from_folder false kerasOnlyFolder = .error .runtimeUnavailable :=
  ⟨by decide, load_model_requires_keras_runtime kerasOnlyFolder (Or.inr (by decide))⟩

/-- Claim C8: `extract_features` computes the derived features
deterministically with guarded divisions — rates are quotients by the
duration when it is positive and 0 when it is 0 (no arithmetic error is
possible: the embedded function is total), the average packet size is the
quotient by the packet count when positive and 0 otherwise, and the
protocol encoding is the fixed {TCP → 6, UDP → 17, ICMP → 1, else 0}
lookup applied to the extracted protocol. -/
theorem extract_features_derived_correct (fd : FlowData) :
    (0 < (extract_features fd).duration →
      (extract_features fd).packets_per_second =
        (extract_features fd).packet_count / (extract_features fd).duration ∧
      (extract_features fd).bytes_per_second =
        (extract_features fd).byte_count / (extract_features fd).duration) ∧
    ((extract_features fd).duration = 0 →
      (extract_features fd).packets_per_second = 0 ∧
      (extract_features fd).bytes_per_second = 0) ∧
    (0 < (extract_features fd).packet_count →
      (extract_features fd).avg_packet_size =
        (extract_features fd).byte_count / (extract_features fd).packet_count) ∧
    (¬ 0 < (extract_features fd).packet_count →
      (extract_features fd).avg_packet_size = 0) ∧
    (extract_features fd).protocol_num = protocol_map_get (extract_features fd).protocol ∧
    protocol_map_get "TCP" = 6 ∧ protocol_map_get "UDP" = 17 ∧
    protocol_map_get "ICMP" = 1 ∧
    (∀ p, p ≠ "TCP" → p ≠ "UDP" → p ≠ "ICMP" → protocol_map_get p = 0) := by
  refine ⟨?_, ?_, ?_, ?_, rfl, by with_unfolding_all decide, by with_unfolding_all decide,
    by with_unfolding_all decide, ?_⟩
  · intro h
    simp only [extract_features] at h ⊢
    rw [if_pos h, if_pos h]
    exact ⟨rfl, rfl⟩
  · intro h
    simp only [extract_features] at h ⊢
    rw [h]
    norm_num
  · intro h
    simp only [extract_features] at h ⊢
    rw [if_pos h]
  · intro h
    simp only [extract_features] at h ⊢
    rw [if_neg h]
  · intro p h1 h2 h3
    simp [protocol_map_get, h1, h2, h3]

/-- Witness for claim C8 at the spec's worked example
(packet_count=100, byte_count=50000, duration_seconds=10, TCP) and at the
zero-duration flow. -/
theorem extract_features_derived_correct_witness :
    (extract_features exampleFlow).packets_per_second = 10 ∧
    (extract_features exampleFlow).bytes_per_second = 5000 ∧
    (extract_features exampleFlow).avg_packet_size = 500 ∧
    (extract_features exampleFlow).protocol_num = 6 ∧
    (extract_features zeroDurationFlow).packets_per_second = 0 ∧
    (extract_features zeroDurationFlow).bytes_per_second = 0 := by
  have h := extract_features_derived_correct exampleFlow
  have h0 := extract_features_derived_correct zeroDurationFlow
  have hd : (extract_features exampleFlow).duration = 10 := rfl
  have hc : (extract_features exampleFlow).packet_count = 100 := rfl
  have hb : (extract_features exampleFlow).byte_count = 50000 := rfl
  have hd0 : (extract_features zeroDurationFlow).duration = 0 := rfl
  obtain ⟨hr1, hr2⟩ := h.1 (by rw [hd]; norm_num)
  obtain ⟨hz1, hz2⟩ := h0.2.1 hd0
  refine ⟨?_, ?_, ?_, ?_, hz1, hz2⟩
  · rw [hr1, hc, hd]; norm_num
  · rw [hr2, hb, hd]; norm_num
  · rw [h.2.2.1 (by rw [hc]; norm_num), hb, hc]; norm_num
  · have hp : (extract_features exampleFlow).protocol = "TCP" := rfl
    rw [h.2.2.2.2.1, hp]
    exact h.2.2.2.2.2.1

/-- Claim C10: a flow record with no `protocol` field at all gets the
default protocol "TCP", hence `protocol_num` 6; the zero encoding applies
only to present-but-unrecognized protocol strings. -/
theorem extract_features_absent_protocol_defaults_tcp (fd : FlowData)
    (h : fd.protocol = none) :
    (extract_features fd).protocol = "TCP" ∧ (extract_features fd).protocol_num = 6 := by
  constructor
  · simp [extract_features, h]
  · simp [extract_features, h, protocol_map_get]

/-- Witness for claim C10 at a flow record with every field absent. -/
theorem extract_features_absent_protocol_defaults_tcp_witness :
    (extract_features emptyFlow).protocol = "TCP" ∧
    (extract_features emptyFlow).protocol_num = 6 :=
  extract_features_absent_protocol_defaults_tcp emptyFlow rfl

/-- Unfolding equation for `predict_threat`: the record returned on
success, with an error of `compute_conf` propagating. -/
lemma predict_threat_eq (features : FeatureMap) (m : PyModel) (scaler : Option Scaler) :
    predict_threat features m scaler =
      match compute_conf m (preprocess_input (featureRow features) scaler) with
      | .error e => .error e
      | .ok conf =>
          .ok { prediction :=
                  if predEqOne (compute_pred m (preprocess_input (featureRow features) scaler))
                  then "malicious" else "benign"
                confidence := conf
                is_malicious :=
                  predEqOne (compute_pred m (preprocess_input (featureRow features) scaler))
                attack_type :=
                  if predEqOne (compute_pred m (preprocess_input (featureRow features) scaler))
                  then "anomaly" else "benign"
                inference_time := 0 } := by
  unfold predict_threat
  cases hc : compute_conf m (preprocess_input (featureRow features) scaler) <;>
    simp [Bind.bind, Except.bind, hc]

/-- Claim C3: whenever `predict_threat` returns a Decision Record, its
`is_malicious` flag agrees with its `prediction` string — `is_malicious`
is true iff the prediction is "malicious". -/
theorem predict_threat_is_malicious_iff_prediction (features : FeatureMap) (m : PyModel)
    (scaler : Option Scaler) (r : DecisionRecord)
    (h : predict_threat features m scaler = .ok r) :
    (r.is_malicious = true) ↔ r.prediction = "malicious" := by
  rw [predict_threat_eq] at h
  cases hc : compute_conf m (preprocess_input (featureRow features) scaler) with
  | error e => rw [hc] at h; exact absurd h (by simp)
  | ok conf =>
      rw [hc] at h
      cases Except.ok.inj h
      cases hb : predEqOne (compute_pred m (preprocess_input (featureRow features) scaler)) <;>
        simp [hb]

/-- Witness for claim C3 at a concrete capability-free model: the benign
default record satisfies the invariant. -/
theorem predict_threat_is_malicious_iff_prediction_witness :
    (defaultDecision.is_malicious = true) ↔ defaultDecision.prediction = "malicious" :=
  predict_threat_is_malicious_iff_prediction emptyFeatureMap capabilityFreeModel none
    defaultDecision (by with_unfolding_all decide)

/-- Counterexample to claim C2 as stated: a model whose `predict_proba`
raises does NOT get downgraded to safe defaults — `predict_threat`
propagates the exception to the caller (the `predict_proba` branch of the
confidence step is not inside a `try`). -/
theorem predict_threat_propagates_raising_proba :
    predict_threat emptyFeatureMap raisingProbaModel none = .error () := by
  with_unfolding_all decide

/-- Claim C2 (amended): for a model without the probability capability,
internal prediction faults — a raising `predict`, an absent `predict` —
are swallowed and `predict_threat` returns the safe-default Decision
Record (confidence 0.5, predicted class 0, hence a benign verdict); but a
raising `predict_proba` of a probability-capable model propagates to the
caller as an error (see the counterexample). -/
theorem predict_threat_swallows_predict_faults (features : FeatureMap) (m : PyModel)
    (scaler : Option Scaler)
    (h1 : m.predict_proba = none)
    (h2 : ∀ p, m.predict = some p → ∀ X, p X = .error ()) :
    predict_threat features m scaler = .ok defaultDecision := by
  have hconf : compute_conf m (preprocess_input (featureRow features) scaler) =
      .ok (.fin (1 / 2)) := by
    unfold compute_conf
    rw [h1]
    cases hp : m.predict with
    | none => rfl
    | some p => simp [h2 p hp]
  have hpred : compute_pred m (preprocess_input (featureRow features) scaler) =
      .num (.fin 0) := by
    unfold compute_pred
    cases hp : m.predict with
    | none => rfl
    | some p => simp [h2 p hp]
  rw [predict_threat_eq, hconf, hpred]
  with_unfolding_all decide

/-- Witness for the amended claim C2 at a concrete model with no
prediction capability at all. -/
theorem predict_threat_swallows_predict_faults_witness :
    predict_threat emptyFeatureMap capabilityFreeModel none = .ok defaultDecision :=
  predict_threat_swallows_predict_faults emptyFeatureMap capabilityFreeModel none rfl
    (fun p hp => by exact absurd hp (by simp [capabilityFreeModel]))

/-- Counterexample to claim C1 as stated: a model whose `predict_proba`
returns the matrix [[2, 0]] yields a Decision Record whose confidence is
2, outside [0, 1] — the code never clamps the maximum probability. -/
theorem predict_threat_confidence_counterexample :
    predict_threat emptyFeatureMap outOfRangeProbaModel none = .ok outOfRangeDecision ∧
    outOfRangeDecision.confidence.inUnit = false := by
  constructor <;> with_unfolding_all decide

/-- The NaN-propagating maximum of two values in [0, 1] stays in [0, 1]. -/
lemma vmax_inUnit {a b : FVal} (ha : a.inUnit = true) (hb : b.inUnit = true) :
    (a.vmax b).inUnit = true := by
  cases a with
  | fin qa =>
      cases b with
      | fin qb =>
          simp only [FVal.vmax, FVal.inUnit, decide_eq_true_eq] at ha hb ⊢
          exact ⟨le_max_of_le_left ha.1, max_le ha.2 hb.2⟩
      | posInf => simp [FVal.inUnit] at hb
      | negInf => simp [FVal.inUnit] at hb
      | nan => simp [FVal.inUnit] at hb
  | posInf => simp [FVal.inUnit] at ha
  | negInf => simp [FVal.inUnit] at ha
  | nan => simp [FVal.inUnit] at ha

/-- A `vmax` fold over values in [0, 1], started in [0, 1], stays
in [0, 1]. -/
lemma foldl_vmax_inUnit (l : List FVal) : ∀ v : FVal, v.inUnit = true →
    (∀ x ∈ l, x.inUnit = true) → (l.foldl FVal.vmax v).inUnit = true := by
  induction l with
  | nil => intro v hv _; exact hv
  | cons x xs ih =>
      intro v hv hl
      simp only [List.foldl_cons]
      exact ih _ (vmax_inUnit hv (hl x (List.mem_cons_self x xs)))
        (fun y hy => hl y (List.mem_cons_of_mem x hy))

/-- `np.max` of a nonempty array of values in [0, 1] succeeds and lies
in [0, 1]. -/
lemma npMax_inUnit (l : List FVal) (hne : l ≠ []) (hl : ∀ x ∈ l, x.inUnit = true) :
    ∃ c, npMax l = .ok c ∧ c.inUnit = true := by
  cases l with
  | nil => exact absurd rfl hne
  | cons v vs =>
      exact ⟨_, rfl, foldl_vmax_inUnit vs v (hl v (List.mem_cons_self v vs))
        (fun y hy => hl y (List.mem_cons_of_mem v hy))⟩

/-- The running IEEE sum of values in [0, 1] stays finite, bounded below
by the accumulator and above by the accumulator plus the count. -/
lemma foldl_add_bounds (l : List FVal) : ∀ acc : ℚ, (∀ x ∈ l, x.inUnit = true) →
    ∃ s : ℚ, l.foldl FVal.add (.fin acc) = .fin s ∧ acc ≤ s ∧ s ≤ acc + l.length := by
  induction l with
  | nil =>
      intro acc _
      refine ⟨acc, rfl, le_refl _, ?_⟩
      simp
  | cons x xs ih =>
      intro acc hl
      have hx := hl x (List.mem_cons_self x xs)
      have hl2 : ∀ y ∈ xs, y.inUnit = true := fun y hy => hl y (List.mem_cons_of_mem x hy)
      cases x with
      | fin q =>
          simp only [FVal.inUnit, decide_eq_true_eq] at hx
          obtain ⟨s, hs, hlo, hhi⟩ := ih (acc + q) hl2
          refine ⟨s, by simpa [FVal.add] using hs, by linarith [hx.1], ?_⟩
          simp only [List.length_cons, Nat.cast_add, Nat.cast_one]
          linarith [hx.2]
      | posInf => simp [FVal.inUnit] at hx
      | negInf => simp [FVal.inUnit] at hx
      | nan => simp [FVal.inUnit] at hx

/-- The mean of a nonempty array of values in [0, 1] lies in [0, 1]. -/
lemma npMean_inUnit (l : List FVal) (hne : l ≠ []) (hl : ∀ x ∈ l, x.inUnit = true) :
    (npMean l).inUnit = true := by
  cases l with
  | nil => exact absurd rfl hne
  | cons x xs =>
      obtain ⟨s, hs, hlo, hhi⟩ := foldl_add_bounds (x :: xs) 0 hl
      unfold npMean
      rw [hs]
      simp only [FVal.divNat, FVal.inUnit, decide_eq_true_eq]
      have hpos : (0 : ℚ) < ((x :: xs).length : ℚ) := by
        exact_mod_cast Nat.succ_pos xs.length
      constructor
      · exact div_nonneg (by linarith) (le_of_lt hpos)
      · rw [div_le_one hpos]
        linarith

/-- Whenever `compute_conf` succeeds on a model whose probability and raw
outputs are well formed, the resulting confidence lies in [0, 1]. -/
lemma compute_conf_inUnit (m : PyModel) (X : FMatrix) (conf : FVal)
    (hpp : ∀ pp out, m.predict_proba = some pp → pp X = .ok out → probaGood out)
    (hpr : ∀ p a, m.predict_proba = none → m.predict = some p →
      p X = .ok (.arr a) → goodArr a)
    (hc : compute_conf m X = .ok conf) : conf.inUnit = true := by
  unfold compute_conf at hc
  split at hc
  · rename_i pp hpb
    split at hc
    · exact absurd hc (by simp)
    · rename_i out hout
      have hg := hpp pp out hpb hout
      split at hc
      · exact absurd hc (by simp)
      · rename_i a
        simp only [probaGood] at hg
        split at hc
        · obtain ⟨c, hcm, hcu⟩ := npMax_inUnit a.elems hg.1 hg.2
          rw [hcm] at hc
          cases Except.ok.inj hc
          exact hcu
        · cases Except.ok.inj hc
          exact npMean_inUnit a.elems hg.1 hg.2
      · rename_i a
        simp only [probaGood] at hg
        split at hc
        · obtain ⟨c, hcm, hcu⟩ := npMax_inUnit a.elems hg.1 hg.2
          rw [hcm] at hc
          cases Except.ok.inj hc
          exact hcu
        · cases Except.ok.inj hc
          exact npMean_inUnit a.elems hg.1 hg.2
  · rename_i hpb
    split at hc
    · cases Except.ok.inj hc
      with_unfolding_all decide
    · rename_i p hp
      split at hc
      · cases Except.ok.inj hc
        with_unfolding_all decide
      · rename_i a hout
        have hg := hpr p a hpb hp hout
        split at hc
        · rename_i v hm
          cases Except.ok.inj hc
          obtain ⟨c, hcm, hcu⟩ := npMax_inUnit a.elems hg.1 hg.2
          rw [hm] at hcm
          cases Except.ok.inj hcm
          exact hcu
        · cases Except.ok.inj hc
          with_unfolding_all decide
      · cases Except.ok.inj hc
        with_unfolding_all decide

/-- Claim C1 (amended): whenever `predict_threat` returns a Decision
Record for a model whose probability output (and, lacking that
capability, whose raw array prediction output) is nonempty with all
values in [0, 1], the confidence lies in [0, 1].  (As stated over ALL
models the claim is false — see the counterexample: the code never
clamps max-of-output.) -/
theorem predict_threat_confidence_in_unit (features : FeatureMap) (m : PyModel)
    (scaler : Option Scaler) (r : DecisionRecord)
    (hpp : ∀ pp X out, m.predict_proba = some pp → pp X = .ok out → probaGood out)
    (hpr : ∀ p X a, m.predict_proba = none → m.predict = some p →
      p X = .ok (.arr a) → goodArr a)
    (h : predict_threat features m scaler = .ok r) :
    r.confidence.inUnit = true := by
  rw [predict_threat_eq] at h
  cases hc : compute_conf m (preprocess_input (featureRow features) scaler) with
  | error e => rw [hc] at h; exact absurd h (by simp)
  | ok conf =>
      rw [hc] at h
      cases Except.ok.inj h
      exact compute_conf_inUnit m _ conf (fun pp out => hpp pp _ out)
        (fun p a => hpr p _ a) hc

/-- Witness for the amended claim C1 at a model returning the well-formed
probability matrix [[3/4, 1/4]]: the confidence 3/4 lies in [0, 1]. -/
theorem predict_threat_confidence_in_unit_witness :
    wellFormedDecision.confidence.inUnit = true := by
  refine predict_threat_confidence_in_unit emptyFeatureMap wellFormedProbaModel none
    wellFormedDecision ?_ ?_ (by with_unfolding_all decide)
  · intro pp X out h1 h2
    have hf := Option.some.inj h1
    rw [← hf] at h2
    have hout := Except.ok.inj h2
    rw [← hout]
    constructor
    · with_unfolding_all decide
    · with_unfolding_all decide
  · intro p X a h1 _ _
    exact absurd h1 (by simp [wellFormedProbaModel])

/-- The batch loop, on success, returns one record per input flow, in
input order: the i-th record is the successful result of `predictOne` on
the i-th flow. -/
lemma predict_batch_loop_spec (m : PyModel) (scaler : Option Scaler)
    (flows : List FlowData) (ps : List BatchRecord)
    (h : predict_batch_loop m scaler flows = .ok ps) :
    ps.length = flows.length ∧
    ∀ i : Nat, ps[i]? = (flows[i]?.bind fun f => (predictOne m scaler f).toOption) := by
  induction flows generalizing ps with
  | nil =>
      cases Except.ok.inj h
      exact ⟨rfl, fun i => by simp⟩
  | cons f fs ih =>
      unfold predict_batch_loop at h
      cases h1 : predictOne m scaler f with
      | error e => rw [h1] at h; exact absurd h (by simp)
      | ok r =>
          rw [h1] at h
          cases h2 : predict_batch_loop m scaler fs with
          | error e => rw [h2] at h; exact absurd h (by simp)
          | ok rs =>
              rw [h2] at h
              cases Except.ok.inj h
              obtain ⟨hlen, hidx⟩ := ih rs h2
              refine ⟨by simp [hlen], ?_⟩
              intro i
              cases i with
              | zero => simp [h1, Except.toOption]
              | succ n => simpa using hidx n

/-- Claim C9: on success, batch prediction over N flow records returns
exactly N decision records in input order (the i-th record comes from the
i-th flow), with `malicious_count` equal to the number of returned
records whose `is_malicious` is true. -/
theorem predict_batch_preserves_count_and_order (m : PyModel) (scaler : Option Scaler)
    (flows : List FlowData) (resp : BatchResponse)
    (h : predict_batch m scaler flows = .ok resp) :
    resp.predictions.length = flows.length ∧
    resp.total_flows = flows.length ∧
    resp.malicious_count = resp.predictions.countP (fun p => p.is_malicious) ∧
    ∀ i : Nat, resp.predictions[i]? =
      (flows[i]?.bind fun f => (predictOne m scaler f).toOption) := by
  unfold predict_batch at h
  cases hl : predict_batch_loop m scaler flows with
  | error e => rw [hl] at h; exact absurd h (by simp)
  | ok ps =>
      rw [hl] at h
      cases Except.ok.inj h
      obtain ⟨hlen, hidx⟩ := predict_batch_loop_spec m scaler flows ps hl
      exact ⟨hlen, hlen, rfl, hidx⟩

/-- Witness for claim C9 at a one-flow batch under the capability-free
model. -/
theorem predict_batch_preserves_count_and_order_witness :
    exampleBatchResponse.predictions.length = 1 ∧
    exampleBatchResponse.total_flows = 1 ∧
    exampleBatchResponse.malicious_count = 0 := by
  have h := predict_batch_preserves_count_and_order capabilityFreeModel none [exampleFlow]
    exampleBatchResponse (by with_unfolding_all decide)
  refine ⟨h.1, h.2.1, ?_⟩
  rw [h.2.2.1]
  with_unfolding_all decide
